import Mathlib

/-!
# Recipe files of the installer (`internal/install/recipe_file.go`)

A shallow embedding of the recipe-file loader: the descriptor types, the two
entry points of `recipeFileFetcherImpl` (`fetchRecipeFile`, `loadRecipeFile`),
the parser wrappers (`toRecipeFile`, `newRecipeFile`) and the projection
(`String`, `ToRecipe`).

Conventions of the embedding.

* A Go `string` and a Go `[]byte` both carry a sequence of bytes and the
  conversions `string(b)` and `[]byte(s)` copy it unchanged; one carrier type
  stands for each and the conversions are kept as named functions.
* A Go result pair `(*T, error)` is a pair of options, `none` standing for `nil`.
* A slice is a list; a `map[string]interface{}` is an association list over a
  type parameter `V` that stands for `interface{}`.
* `gopkg.in/yaml.v2` is not part of the repository. Its two entry points used
  here are a parameter (`Yaml`): every statement below holds for whatever
  deterministic `Marshal` and `Unmarshal` are linked in. A call into the library
  that panics returns nothing and is outside these statements.
* The `io.ReadCloser` of an HTTP response is a finite script of `Read` outcomes
  together with the two facts the code can change: whether a `Read` has reported
  `io.EOF`, and whether `Close` was called.
* The calls a fetch makes are recorded, in order, in a trace.
-/

namespace Install

/-- Go `string`. -/
abbrev GoString := String

/-- Go `[]byte`. -/
abbrev GoBytes := String

/-- The conversion `string(b)`. -/
def stringOfBytes (b : GoBytes) : GoString := b

/-- The conversion `[]byte(s)`. -/
def bytesOfString (s : GoString) : GoBytes := s

/-- A non-nil Go `error`, identified by its message. -/
structure GoError where
  msg : String
deriving DecidableEq, Repr

/-! ## The descriptor types (lines 11-51) -/

/-- Struct `variableConfig`; the yaml keys are `name`, `prompt`, `default`, and
`Secret` carries the tag `secret:"prompt"`. -/
structure variableConfig where
  Name : GoString
  Prompt : GoString
  Secret : Bool
  Default : GoString
deriving DecidableEq, Repr

/-- Struct `recipeInstallTarget`; `Type_` is the field `Type`. -/
structure recipeInstallTarget where
  Type_ : GoString
  OS : GoString
  Platform : GoString
  PlatformFamily : GoString
  PlatformVersion : GoString
  KernelVersion : GoString
  KernelArch : GoString
deriving DecidableEq, Repr

/-- Struct `logMatchAttributes`. -/
structure logMatchAttributes where
  LogType : GoString
deriving DecidableEq, Repr

/-- Struct `logMatch`; `attributes`, `pattern` and `systemd` are `omitempty`. -/
structure logMatch where
  Name : GoString
  File : GoString
  Attributes : logMatchAttributes
  Pattern : GoString
  Systemd : GoString
deriving DecidableEq, Repr

/-- Struct `recipeFile`, over the type `V` of the values of the free-form
`install` map. -/
structure recipeFile (V : Type) where
  Description : GoString
  InputVars : List variableConfig
  Install : List (GoString × V)
  InstallTargets : List recipeInstallTarget
  Keywords : List GoString
  LogMatch : List logMatch
  Name : GoString
  ProcessMatch : List GoString
  Repository : GoString
  ValidationNRQL : GoString
deriving DecidableEq, Repr

/-- The zero value that `var f recipeFile` declares. -/
def recipeFile.zero (V : Type) : recipeFile V :=
  { Description := "", InputVars := [], Install := [], InstallTargets := [],
    Keywords := [], LogMatch := [], Name := "", ProcessMatch := [],
    Repository := "", ValidationNRQL := "" }

/-- Modelled from the spec: the struct `recipe` is declared elsewhere in the
package; these are the fields the composite literal in `ToRecipe` sets, which
are the fields the spec lists for the downstream recipe. -/
structure recipe where
  File : GoString
  Name : GoString
  Description : GoString
  Repository : GoString
  Keywords : List GoString
  ProcessMatch : List GoString
  LogMatch : List logMatch
  ValidationNRQL : GoString
deriving DecidableEq, Repr

/-! ## The yaml library, a parameter -/

/-- The two functions of `gopkg.in/yaml.v2` the file calls.
`Unmarshal in out` is `yaml.Unmarshal(in, &out)`: it yields the value it leaves
in `out` (which may be partly filled when it fails) and the error.
`Marshal` is `yaml.Marshal`, yielding the pair `([]byte, error)`. -/
structure Yaml (V : Type) where
  Unmarshal : GoBytes → recipeFile V → recipeFile V × Option GoError
  Marshal : recipeFile V → GoBytes × Option GoError

/-! ## Parsing and projection (lines 95-140) -/

/-- Function `newRecipeFile` (lines 103-111). -/
def newRecipeFile {V : Type} (yaml : Yaml V) (recipeFileString : GoString) :
    Option (recipeFile V) × Option GoError :=
  match yaml.Unmarshal (bytesOfString recipeFileString) (recipeFile.zero V) with
  | (_, some err) => (none, some err)
  | (f, none) => (some f, none)

/-- Function `toRecipeFile` (lines 95-101). -/
def toRecipeFile {V : Type} (yaml : Yaml V) (content : GoString) :
    Option (recipeFile V) × Option GoError :=
  match newRecipeFile yaml content with
  | (_, some err) => (none, some err)
  | (f, none) => (f, none)

/-- Method `recipeFile.String` (lines 113-120). -/
def recipeFile.String {V : Type} (yaml : Yaml V) (f : recipeFile V) :
    GoString × Option GoError :=
  match yaml.Marshal f with
  | (_, some err) => ("", some err)
  | (out, none) => (stringOfBytes out, none)

/-- Method `recipeFile.ToRecipe` (lines 122-140). -/
def recipeFile.ToRecipe {V : Type} (yaml : Yaml V) (f : recipeFile V) :
    Option recipe × Option GoError :=
  match f.String yaml with
  | (_, some err) => (none, some err)
  | (fileStr, none) =>
    (some
      { File := fileStr
        Name := f.Name
        Description := f.Description
        Repository := f.Repository
        Keywords := f.Keywords
        ProcessMatch := f.ProcessMatch
        LogMatch := f.LogMatch
        ValidationNRQL := f.ValidationNRQL }, none)

/-! ## The response body -/

/-- One call of `Read` on a response body: it delivers bytes with a nil error,
or delivers bytes (possibly none) with an error other than `io.EOF`. Past the
end of the script `Read` reports `io.EOF`. -/
inductive ReadStep where
  | data (p : GoBytes)
  | fail (p : GoBytes) (err : GoError)
deriving DecidableEq, Repr

/-- An `io.ReadCloser`: the outcomes its next `Read` calls will have, whether a
`Read` has reported `io.EOF`, and whether `Close` has been called. -/
structure Body where
  script : List ReadStep
  eof : Bool
  closed : Bool
deriving DecidableEq, Repr

/-- Method `Close` of the body. -/
def Body.Close (b : Body) : Body := { b with closed := true }

/-- The loop of `ioutil.ReadAll`: call `Read` until it reports an error; an
`io.EOF` ends the loop with a nil error, any other error is returned with the
bytes read so far. Yields the pair `([]byte, error)`, the outcomes not yet
consumed and whether `io.EOF` was reported. -/
def readLoop : List ReadStep → GoBytes → (GoBytes × Option GoError) × List ReadStep × Bool
  | [], acc => ((acc, none), [], true)
  | ReadStep.data p :: rest, acc => readLoop rest (acc ++ p)
  | ReadStep.fail p err :: rest, acc => ((acc ++ p, some err), rest, false)

/-- Function `ioutil.ReadAll` on a body: the pair it returns and the body as it
leaves it. -/
def ReadAll (r : Body) : (GoBytes × Option GoError) × Body :=
  match readLoop r.script "" with
  | (res, rest, sawEOF) => (res, { r with script := rest, eof := r.eof || sawEOF })

/-- The body has been read to its end: a `Read` reported `io.EOF` and nothing
is left to deliver. -/
def Body.drained (b : Body) : Prop := b.eof = true ∧ b.script = []

instance (b : Body) : Decidable b.drained := by
  unfold Body.drained; exact inferInstance

/-! ## The fetcher (lines 53-93) -/

/-- The part of `http.Response` the code touches, and its status code, which
the code never looks at. `Body` is `none` for a nil body. -/
structure Response where
  StatusCode : Int
  Body : Option Body
deriving DecidableEq, Repr

/-- The part of `url.URL` the code touches: what its `String()` renders. -/
structure URL where
  String : GoString
deriving DecidableEq, Repr

/-- Struct `recipeFileFetcherImpl`: the two injected functions, each yielding a
Go result pair. -/
structure recipeFileFetcherImpl where
  HTTPGetFunc : GoString → Option Response × Option GoError
  readFileFunc : GoString → GoBytes × Option GoError

/-- A call made while fetching or loading, as written in the source. -/
inductive Event where
  | HTTPGetFunc (recipeURL : GoString)
  | readFileFunc (filename : GoString)
  | ReadAll
  | toRecipeFile (content : GoString)
  | Close
deriving DecidableEq, Repr

/-- How a call ends: it returns a value, or it panics (a nil dereference). -/
inductive Outcome (α : Type) where
  | returns (a : α)
  | panics
deriving DecidableEq, Repr

/-- What a call of `fetchRecipeFile` leaves behind: how it ended, the calls it
made in order, and the body of the response `HTTPGetFunc` handed over (if any)
as it is when the call ends. -/
structure FetchRun (V : Type) where
  ret : Outcome (Option (recipeFile V) × Option GoError)
  trace : List Event
  body : Option Body

/-- What a call of `loadRecipeFile` leaves behind. -/
structure LoadRun (V : Type) where
  ret : Option (recipeFile V) × Option GoError
  trace : List Event

/-- Method `fetchRecipeFile` (lines 73-85). The deferred `Close` runs after the
return value has been computed, on each path that passes the `defer`. -/
def fetchRecipeFile {V : Type} (yaml : Yaml V) (f : recipeFileFetcherImpl) (recipeURL : URL) :
    FetchRun V :=
  match f.HTTPGetFunc recipeURL.String with
  | (response, some err) =>
    { ret := Outcome.returns (none, some err)
      trace := [Event.HTTPGetFunc recipeURL.String]
      body := response.bind Response.Body }
  | (none, none) =>
    { ret := Outcome.panics
      trace := [Event.HTTPGetFunc recipeURL.String]
      body := none }
  | (some response, none) =>
    match response.Body with
    | none =>
      { ret := Outcome.panics
        trace := [Event.HTTPGetFunc recipeURL.String]
        body := none }
    | some responseBody =>
      match ReadAll responseBody with
      | ((_, some err), afterRead) =>
        { ret := Outcome.returns (none, some err)
          trace := [Event.HTTPGetFunc recipeURL.String, Event.ReadAll, Event.Close]
          body := some afterRead.Close }
      | ((body, none), afterRead) =>
        { ret := Outcome.returns (toRecipeFile yaml (stringOfBytes body))
          trace := [Event.HTTPGetFunc recipeURL.String, Event.ReadAll,
                    Event.toRecipeFile (stringOfBytes body), Event.Close]
          body := some afterRead.Close }

/-- Method `loadRecipeFile` (lines 87-93). -/
def loadRecipeFile {V : Type} (yaml : Yaml V) (f : recipeFileFetcherImpl) (filename : GoString) :
    LoadRun V :=
  match f.readFileFunc filename with
  | (_, some err) =>
    { ret := (none, some err)
      trace := [Event.readFileFunc filename] }
  | (out, none) =>
    { ret := toRecipeFile yaml (stringOfBytes out)
      trace := [Event.readFileFunc filename, Event.toRecipeFile (stringOfBytes out)] }

/-! ## Test doubles

Stand-ins for the library and for the injected functions, used to run the
definitions on concrete inputs. -/

/-- A codec that writes a descriptor as its name and reads a text as a
descriptor of that name. -/
def echoYaml : Yaml Nat :=
  { Unmarshal := fun text out => ({ out with Name := text }, none)
    Marshal := fun f => (bytesOfString f.Name, none) }

/-- A codec that fails both ways; its decoder leaves a partly filled value. -/
def refusingYaml : Yaml Nat :=
  { Unmarshal := fun _ out => ({ out with Name := "half" }, some ⟨"yaml: unmarshal errors"⟩)
    Marshal := fun _ => ("", some ⟨"yaml: cannot marshal"⟩) }

/-- The descriptor with name `foo`, repository `bar` and two keywords. -/
def fooBar : recipeFile Nat :=
  { recipeFile.zero Nat with Name := "foo", Repository := "bar", Keywords := ["apm", "infra"] }

/-- A locator. -/
def someURL : URL := { String := "https://example.com/recipe.yml" }

/-- A fetcher whose transport and file system both fail; the transport hands
over a response along with its error. -/
def unreachableFetcher : recipeFileFetcherImpl :=
  { HTTPGetFunc := fun _ =>
      (some { StatusCode := 302, Body := some { script := [ReadStep.data "x"], eof := false, closed := true } },
       some ⟨"Get: stopped after 10 redirects"⟩)
    readFileFunc := fun _ => ("", some ⟨"open recipe.yml: no such file or directory"⟩) }

/-- A fetcher whose transport answers 404 with the body `foo` in two reads and
whose file system holds `foo`. -/
def servingFetcher : recipeFileFetcherImpl :=
  { HTTPGetFunc := fun _ =>
      (some { StatusCode := 404,
              Body := some { script := [ReadStep.data "fo", ReadStep.data "o"], eof := false, closed := false } },
       none)
    readFileFunc := fun _ => ("foo", none) }

/-- A fetcher whose response body fails on its first read, with more to read
after the failure. -/
def flakyFetcher : recipeFileFetcherImpl :=
  { HTTPGetFunc := fun _ =>
      (some { StatusCode := 200,
              Body := some { script := [ReadStep.fail "" ⟨"read: connection reset by peer"⟩,
                                        ReadStep.data "name: x"],
                             eof := false, closed := false } },
       none)
    readFileFunc := fun _ => ("", none) }

/-! ## Lemmas -/

/-- The wrapper `toRecipeFile` returns what `newRecipeFile` returns. -/
theorem toRecipeFile_eq_newRecipeFile {V : Type} (yaml : Yaml V) (content : GoString) :
    toRecipeFile yaml content = newRecipeFile yaml content := by
  unfold toRecipeFile newRecipeFile
  rcases yaml.Unmarshal (bytesOfString content) (recipeFile.zero V) with ⟨g, _ | err⟩ <;> rfl

/-- When the decoder reports an error, both parser entry points return a nil
descriptor and that error, whatever the decoder left in its target. -/
theorem newRecipeFile_of_Unmarshal_error {V : Type} (yaml : Yaml V) (text : GoString)
    (left : recipeFile V) (e : GoError)
    (h : yaml.Unmarshal (bytesOfString text) (recipeFile.zero V) = (left, some e)) :
    newRecipeFile yaml text = (none, some e) ∧ toRecipeFile yaml text = (none, some e) := by
  have h1 : newRecipeFile yaml text = (none, some e) := by
    unfold newRecipeFile; rw [h]
  exact ⟨h1, by rw [toRecipeFile_eq_newRecipeFile, h1]⟩

/-- The projection succeeds exactly when the encoder reports no error. -/
theorem ToRecipe_ok_iff_Marshal_ok {V : Type} (yaml : Yaml V) (f : recipeFile V) :
    (∃ r, f.ToRecipe yaml = (some r, none)) ↔ (yaml.Marshal f).2 = none := by
  unfold recipeFile.ToRecipe recipeFile.String
  rcases yaml.Marshal f with ⟨out, _ | err⟩ <;> simp

/-- Parsing the stored text of a projection is the decoder run on the output
of the encoder: what it gives back is the library's to decide. With a codec
that keeps only the name, the descriptor `foo`/`bar` does not come back. -/
theorem reparse_is_Unmarshal_of_Marshal :
    (∀ (V : Type) (yaml : Yaml V) (f : recipeFile V) (r : recipe),
      f.ToRecipe yaml = (some r, none) →
      newRecipeFile yaml r.File = newRecipeFile yaml (stringOfBytes (yaml.Marshal f).1)) ∧
    (fooBar.ToRecipe echoYaml).1.map recipe.File = some "foo" ∧
    newRecipeFile echoYaml "foo" = (some { recipeFile.zero Nat with Name := "foo" }, none) ∧
    ({ recipeFile.zero Nat with Name := "foo" } : recipeFile Nat) ≠ fooBar := by
  refine ⟨?_, rfl, rfl, by decide⟩
  intro V yaml f r h
  unfold recipeFile.ToRecipe recipeFile.String at h
  rcases hm : yaml.Marshal f with ⟨out, _ | err⟩
  · rw [hm] at h
    simp at h
    rw [← h]
  · rw [hm] at h
    simp at h

/-- When the read loop ends without an error it has consumed the whole script
and seen `io.EOF`. -/
theorem readLoop_ok (script : List ReadStep) (acc : GoBytes)
    (h : (readLoop script acc).1.2 = none) :
    (readLoop script acc).2 = ([], true) := by
  induction script generalizing acc with
  | nil => rfl
  | cons step rest ih =>
    cases step with
    | data p => exact ih (acc ++ p) h
    | fail p err => simp [readLoop] at h

/-- A body that `ReadAll` read without an error is drained. -/
theorem ReadAll_ok_drained (r : Body) (h : (ReadAll r).1.2 = none) :
    (ReadAll r).2.drained := by
  have h1 : (readLoop r.script "").1.2 = none := h
  have h2 := readLoop_ok r.script "" h1
  have h3 : (ReadAll r).2 =
      { r with script := (readLoop r.script "").2.1, eof := r.eof || (readLoop r.script "").2.2 } := rfl
  rw [h3, h2]
  simp [Body.drained]

/-- Closing a body leaves what was read of it as it is. -/
theorem Close_drained (b : Body) : b.Close.drained ↔ b.drained := Iff.rfl

/-! ## Projection -/

/-- C1: if `f.String()` succeeds with text `s`, `f.ToRecipe()` returns a nil
error and a recipe whose `File` is `s` and whose `Name`, `Description`,
`Repository`, `Keywords`, `ProcessMatch`, `LogMatch` and `ValidationNRQL` are
those of `f`; if `f.String()` fails with error `e`, `f.ToRecipe()` returns no
recipe and `e`. -/
theorem ToRecipe_follows_String {V : Type} (yaml : Yaml V) (f : recipeFile V) :
    (∀ s, f.String yaml = (s, none) →
      ∃ r, f.ToRecipe yaml = (some r, none) ∧ r.File = s ∧ r.Name = f.Name ∧
        r.Description = f.Description ∧ r.Repository = f.Repository ∧
        r.Keywords = f.Keywords ∧ r.ProcessMatch = f.ProcessMatch ∧
        r.LogMatch = f.LogMatch ∧ r.ValidationNRQL = f.ValidationNRQL) ∧
    (∀ s e, f.String yaml = (s, some e) → f.ToRecipe yaml = (none, some e)) := by
  constructor
  · intro s h
    unfold recipeFile.ToRecipe
    rw [h]
    exact ⟨_, rfl, rfl, rfl, rfl, rfl, rfl, rfl, rfl, rfl⟩
  · intro s e h
    unfold recipeFile.ToRecipe
    rw [h]

/-- The descriptor `foo`/`bar` with two keywords projects to exactly those
values when the codec succeeds, and to the codec error when it fails. -/
theorem ToRecipe_follows_String_witness :
    (fooBar.String echoYaml = ("foo", none) ∧
      ∃ r, fooBar.ToRecipe echoYaml = (some r, none) ∧ r.File = "foo" ∧ r.Name = fooBar.Name ∧
        r.Description = fooBar.Description ∧ r.Repository = fooBar.Repository ∧
        r.Keywords = fooBar.Keywords ∧ r.ProcessMatch = fooBar.ProcessMatch ∧
        r.LogMatch = fooBar.LogMatch ∧ r.ValidationNRQL = fooBar.ValidationNRQL) ∧
    (fooBar.String refusingYaml = ("", some ⟨"yaml: cannot marshal"⟩) ∧
      fooBar.ToRecipe refusingYaml = (none, some ⟨"yaml: cannot marshal"⟩)) :=
  ⟨⟨rfl, (ToRecipe_follows_String echoYaml fooBar).1 "foo" rfl⟩,
   ⟨rfl, (ToRecipe_follows_String refusingYaml fooBar).2 "" ⟨"yaml: cannot marshal"⟩ rfl⟩⟩

/-! ## Failure of the injected functions -/

/-- C5: when the injected `HTTPGetFunc` returns an error `e` for `u.String()`,
`fetchRecipeFile(u)` returns a nil descriptor and `e`; the one call it made is
the transport call, so it neither read a response body nor called the parser,
and a body handed over with the error is left as it was. -/
theorem fetchRecipeFile_transport_error {V : Type} (yaml : Yaml V) (f : recipeFileFetcherImpl)
    (u : URL) (response : Option Response) (e : GoError)
    (h : f.HTTPGetFunc u.String = (response, some e)) :
    (fetchRecipeFile yaml f u).ret = Outcome.returns (none, some e) ∧
    (fetchRecipeFile yaml f u).trace = [Event.HTTPGetFunc u.String] ∧
    Event.ReadAll ∉ (fetchRecipeFile yaml f u).trace ∧
    (∀ content, Event.toRecipeFile content ∉ (fetchRecipeFile yaml f u).trace) ∧
    (fetchRecipeFile yaml f u).body = response.bind Response.Body := by
  unfold fetchRecipeFile
  rw [h]
  simp

/-- A transport that fails after ten redirects: the fetch returns that error and
made the transport call only. -/
theorem fetchRecipeFile_transport_error_witness :
    (unreachableFetcher.HTTPGetFunc someURL.String).2 = some ⟨"Get: stopped after 10 redirects"⟩ ∧
    ((fetchRecipeFile echoYaml unreachableFetcher someURL).ret =
        Outcome.returns (none, some ⟨"Get: stopped after 10 redirects"⟩) ∧
      (fetchRecipeFile echoYaml unreachableFetcher someURL).trace =
        [Event.HTTPGetFunc someURL.String] ∧
      Event.ReadAll ∉ (fetchRecipeFile echoYaml unreachableFetcher someURL).trace ∧
      (∀ content, Event.toRecipeFile content ∉
        (fetchRecipeFile echoYaml unreachableFetcher someURL).trace) ∧
      (fetchRecipeFile echoYaml unreachableFetcher someURL).body =
        (unreachableFetcher.HTTPGetFunc someURL.String).1.bind Response.Body) :=
  ⟨rfl, fetchRecipeFile_transport_error echoYaml unreachableFetcher someURL _ _ rfl⟩

/-- C6: when the injected `readFileFunc` returns an error `e` for the path,
`loadRecipeFile` returns a nil descriptor (no descriptor at all, so no partly
filled one) and `e`; the one call it made is the read, so the parser was not
called. -/
theorem loadRecipeFile_read_error {V : Type} (yaml : Yaml V) (f : recipeFileFetcherImpl)
    (filename : GoString) (out : GoBytes) (e : GoError)
    (h : f.readFileFunc filename = (out, some e)) :
    (loadRecipeFile yaml f filename).ret = (none, some e) ∧
    (loadRecipeFile yaml f filename).trace = [Event.readFileFunc filename] ∧
    (∀ content, Event.toRecipeFile content ∉ (loadRecipeFile yaml f filename).trace) := by
  unfold loadRecipeFile
  rw [h]
  simp

/-- A path that does not exist: the load returns the read error and made the
read call only. -/
theorem loadRecipeFile_read_error_witness :
    unreachableFetcher.readFileFunc "recipe.yml" =
      ("", some ⟨"open recipe.yml: no such file or directory"⟩) ∧
    ((loadRecipeFile echoYaml unreachableFetcher "recipe.yml").ret =
        (none, some ⟨"open recipe.yml: no such file or directory"⟩) ∧
      (loadRecipeFile echoYaml unreachableFetcher "recipe.yml").trace =
        [Event.readFileFunc "recipe.yml"] ∧
      (∀ content, Event.toRecipeFile content ∉
        (loadRecipeFile echoYaml unreachableFetcher "recipe.yml").trace)) :=
  ⟨rfl, loadRecipeFile_read_error echoYaml unreachableFetcher "recipe.yml" "" _ rfl⟩

/-! ## The response body on the exit paths -/

/-- C9, as stated, fails on the body-read failure path: the transport returns a
response and a nil error, the first read of the body fails, `fetchRecipeFile`
returns that error, and the body it leaves is closed but not drained: no
`io.EOF` was seen and the bytes after the failure were never read. -/
theorem fetchRecipeFile_read_failure_not_drained :
    flakyFetcher.HTTPGetFunc someURL.String =
      (some { StatusCode := 200,
              Body := some { script := [ReadStep.fail "" ⟨"read: connection reset by peer"⟩,
                                        ReadStep.data "name: x"],
                             eof := false, closed := false } }, none) ∧
    (fetchRecipeFile echoYaml flakyFetcher someURL).ret =
      Outcome.returns (none, some ⟨"read: connection reset by peer"⟩) ∧
    (fetchRecipeFile echoYaml flakyFetcher someURL).body =
      some { script := [ReadStep.data "name: x"], eof := false, closed := true } ∧
    ¬ ∃ b, (fetchRecipeFile echoYaml flakyFetcher someURL).body = some b ∧
        b.drained ∧ b.closed = true := by
  refine ⟨rfl, rfl, rfl, ?_⟩
  rintro ⟨b, hb, hd, -⟩
  have hb2 : (fetchRecipeFile echoYaml flakyFetcher someURL).body =
      some { script := [ReadStep.data "name: x"], eof := false, closed := true } := rfl
  rw [hb2] at hb
  cases hb
  exact absurd hd.1 (by decide)

/-- C9, amended: when the injected `HTTPGetFunc` returns a response with a body
and a nil error, `fetchRecipeFile` returns (it does not panic), it has called
`ReadAll` on the body and its last call is `Close`, so the body is closed on
every exit path; when `ReadAll` reports no error (the paths of successful parse
and of parse failure) the body is drained, and when it reports an error the
fetch returns that error with a nil descriptor. -/
theorem fetchRecipeFile_closes_body {V : Type} (yaml : Yaml V) (f : recipeFileFetcherImpl)
    (u : URL) (response : Response) (responseBody : Body)
    (h : f.HTTPGetFunc u.String = (some response, none))
    (hb : response.Body = some responseBody) :
    (∃ r, (fetchRecipeFile yaml f u).ret = Outcome.returns r) ∧
    (∃ b, (fetchRecipeFile yaml f u).body = some b ∧ b.closed = true ∧
      b = (ReadAll responseBody).2.Close ∧
      ((ReadAll responseBody).1.2 = none → b.drained)) ∧
    Event.ReadAll ∈ (fetchRecipeFile yaml f u).trace ∧
    (fetchRecipeFile yaml f u).trace.getLast? = some Event.Close ∧
    (∀ e, (ReadAll responseBody).1.2 = some e →
      (fetchRecipeFile yaml f u).ret = Outcome.returns (none, some e)) := by
  have hd := ReadAll_ok_drained responseBody
  unfold fetchRecipeFile
  rw [h]
  simp only [hb]
  rcases hr : ReadAll responseBody with ⟨⟨bytes, _ | err⟩, afterRead⟩
  · rw [hr] at hd
    refine ⟨⟨_, rfl⟩, ⟨_, rfl, rfl, rfl, fun _ => ?_⟩, by simp, by simp, ?_⟩
    · exact (Close_drained afterRead).2 (hd rfl)
    · intro e he
      simp at he
  · refine ⟨⟨_, rfl⟩, ⟨_, rfl, rfl, rfl, fun hn => ?_⟩, by simp, by simp, ?_⟩
    · simp at hn
    · intro e he
      simp at he
      rw [he]

/-- A 404 answer read in two pieces is drained and closed; a body whose first
read fails is closed and its error returned. -/
theorem fetchRecipeFile_closes_body_witness :
    ((∃ r, (fetchRecipeFile echoYaml servingFetcher someURL).ret = Outcome.returns r) ∧
      (∃ b, (fetchRecipeFile echoYaml servingFetcher someURL).body = some b ∧ b.closed = true ∧
        b = (ReadAll { script := [ReadStep.data "fo", ReadStep.data "o"],
                       eof := false, closed := false }).2.Close ∧
        ((ReadAll { script := [ReadStep.data "fo", ReadStep.data "o"],
                    eof := false, closed := false }).1.2 = none → b.drained)) ∧
      Event.ReadAll ∈ (fetchRecipeFile echoYaml servingFetcher someURL).trace ∧
      (fetchRecipeFile echoYaml servingFetcher someURL).trace.getLast? = some Event.Close ∧
      (∀ e, (ReadAll { script := [ReadStep.data "fo", ReadStep.data "o"],
                       eof := false, closed := false }).1.2 = some e →
        (fetchRecipeFile echoYaml servingFetcher someURL).ret = Outcome.returns (none, some e))) ∧
    (fetchRecipeFile echoYaml servingFetcher someURL).body =
      some { script := [], eof := true, closed := true } :=
  ⟨fetchRecipeFile_closes_body echoYaml servingFetcher someURL
      { StatusCode := 404,
        Body := some { script := [ReadStep.data "fo", ReadStep.data "o"],
                       eof := false, closed := false } }
      { script := [ReadStep.data "fo", ReadStep.data "o"], eof := false, closed := false }
      rfl rfl, rfl⟩

/-! ## Both entry points are the parser on the bytes obtained -/

/-- C10: if the injected `HTTPGetFunc` returns a response whose body reads
without error to `b`, `fetchRecipeFile` returns what `newRecipeFile(string(b))`
returns, whatever the status code of the response; if the injected
`readFileFunc` returns `b`, `loadRecipeFile` returns what
`newRecipeFile(string(b))` returns; so on the same content the two agree. -/
theorem entry_points_apply_newRecipeFile {V : Type} (yaml : Yaml V) (f : recipeFileFetcherImpl)
    (u : URL) (filename : GoString) (response : Response) (responseBody : Body) (b : GoBytes) :
    (f.HTTPGetFunc u.String = (some response, none) → response.Body = some responseBody →
      (ReadAll responseBody).1 = (b, none) →
      (fetchRecipeFile yaml f u).ret = Outcome.returns (newRecipeFile yaml (stringOfBytes b))) ∧
    (f.readFileFunc filename = (b, none) →
      (loadRecipeFile yaml f filename).ret = newRecipeFile yaml (stringOfBytes b)) ∧
    (f.HTTPGetFunc u.String = (some response, none) → response.Body = some responseBody →
      (ReadAll responseBody).1 = (b, none) → f.readFileFunc filename = (b, none) →
      (fetchRecipeFile yaml f u).ret = Outcome.returns (loadRecipeFile yaml f filename).ret) := by
  have hfetch : f.HTTPGetFunc u.String = (some response, none) → response.Body = some responseBody →
      (ReadAll responseBody).1 = (b, none) →
      (fetchRecipeFile yaml f u).ret = Outcome.returns (newRecipeFile yaml (stringOfBytes b)) := by
    intro h hb hr
    unfold fetchRecipeFile
    rw [h]
    simp only [hb]
    rcases hall : ReadAll responseBody with ⟨⟨bytes, err⟩, afterRead⟩
    rw [hall] at hr
    cases hr
    simp only [toRecipeFile_eq_newRecipeFile]
  have hload : f.readFileFunc filename = (b, none) →
      (loadRecipeFile yaml f filename).ret = newRecipeFile yaml (stringOfBytes b) := by
    intro h
    unfold loadRecipeFile
    rw [h]
    simp only [toRecipeFile_eq_newRecipeFile]
  refine ⟨hfetch, hload, ?_⟩
  intro h hb hr hfile
  rw [hfetch h hb hr, hload hfile]

/-- The bytes `foo`, served with status 404 in two reads and held by the file
system, give the same descriptor by both entry points. -/
theorem entry_points_apply_newRecipeFile_witness :
    (servingFetcher.HTTPGetFunc someURL.String).2 = none ∧
    servingFetcher.readFileFunc "recipe.yml" = ("foo", none) ∧
    (fetchRecipeFile echoYaml servingFetcher someURL).ret =
      Outcome.returns (newRecipeFile echoYaml (stringOfBytes "foo")) ∧
    (loadRecipeFile echoYaml servingFetcher "recipe.yml").ret =
      newRecipeFile echoYaml (stringOfBytes "foo") ∧
    (fetchRecipeFile echoYaml servingFetcher someURL).ret =
      Outcome.returns (loadRecipeFile echoYaml servingFetcher "recipe.yml").ret ∧
    newRecipeFile echoYaml (stringOfBytes "foo") =
      (some { recipeFile.zero Nat with Name := "foo" }, none) :=
  ⟨rfl, rfl,
   (entry_points_apply_newRecipeFile echoYaml servingFetcher someURL "recipe.yml"
      { StatusCode := 404,
        Body := some { script := [ReadStep.data "fo", ReadStep.data "o"],
                       eof := false, closed := false } }
      { script := [ReadStep.data "fo", ReadStep.data "o"], eof := false, closed := false }
      "foo").1 rfl rfl rfl,
   (entry_points_apply_newRecipeFile echoYaml servingFetcher someURL "recipe.yml"
      { StatusCode := 404,
        Body := some { script := [ReadStep.data "fo", ReadStep.data "o"],
                       eof := false, closed := false } }
      { script := [ReadStep.data "fo", ReadStep.data "o"], eof := false, closed := false }
      "foo").2.1 rfl,
   (entry_points_apply_newRecipeFile echoYaml servingFetcher someURL "recipe.yml"
      { StatusCode := 404,
        Body := some { script := [ReadStep.data "fo", ReadStep.data "o"],
                       eof := false, closed := false } }
      { script := [ReadStep.data "fo", ReadStep.data "o"], eof := false, closed := false }
      "foo").2.2 rfl rfl rfl rfl,
   rfl⟩

end Install
